import Mathlib

/-!
Shallow embedding of the `browser-bookmark-sync` repository's three scripts:

* `scripts/fix_nested_folders.py` — `flatten_nested_folders`, a recursive
  rewrite of Safari bookmark plist dictionaries that splices the children of a
  same-titled child folder into its parent;
* `scripts/analyze_bookmarks.py` — `extract_domain` (via `urllib.parse.urlparse`)
  and the domain / hosting-platform counters;
* `archive/scripts/export_to_safari.py` — `get_children` (tree builder over the
  `moz_bookmarks` relational store), `cnt` (bookmark/folder counter) and the
  root-row resolution.

Python/plist values are modelled by the inductive `PyVal` (the subset of value
shapes these scripts manipulate: dictionaries with string keys and insertion
order, strings, integers, lists, and `None`).  Python `==` on these values is
the boolean `pyBeq` below; on the strings the scripts actually compare it is
plain string equality.
-/

/-- A Python/plist value as handled by the scripts: dicts keep their insertion
order as an association list with distinct keys, matching Python dict
semantics. `pynone` models Python `None`. -/
inductive PyVal where
  | dict : List (String × PyVal) → PyVal
  | str : String → PyVal
  | int : Int → PyVal
  | list : List PyVal → PyVal
  | pynone : PyVal
deriving Repr

mutual

/-- Python `==` on the values above (deep structural equality; dicts in these
scripts are compared only through their string fields, and the scripts never
mutate a dict between comparisons, so insertion order agrees). -/
def pyBeq : PyVal → PyVal → Bool
  | .dict f1, .dict f2 => fieldsBeq f1 f2
  | .str s1, .str s2 => s1 == s2
  | .int n1, .int n2 => n1 == n2
  | .list l1, .list l2 => pyListBeq l1 l2
  | .pynone, .pynone => true
  | _, _ => false

/-- Deep equality of dict entry lists. -/
def fieldsBeq : List (String × PyVal) → List (String × PyVal) → Bool
  | [], [] => true
  | (k1, v1) :: r1, (k2, v2) :: r2 => k1 == k2 && pyBeq v1 v2 && fieldsBeq r1 r2
  | _, _ => false

/-- Deep equality of value lists. -/
def pyListBeq : List PyVal → List PyVal → Bool
  | [], [] => true
  | x :: xs, y :: ys => pyBeq x y && pyListBeq xs ys
  | _, _ => false

end

/-- First value bound to key `k`, Python `d[k]` / the hit case of `d.get(k)`. -/
def dictGet (fields : List (String × PyVal)) (k : String) : Option PyVal :=
  match fields with
  | [] => Option.none
  | (k', v) :: rest => if k' = k then some v else dictGet rest k

/-- Python `d[k] = v`: replaces the value in place if the key exists (dicts
keep the original position of an updated key), else appends the key. -/
def dictSet (fields : List (String × PyVal)) (k : String) (v : PyVal) :
    List (String × PyVal) :=
  match fields with
  | [] => [(k, v)]
  | (k', v') :: rest => if k' = k then (k, v) :: rest else (k', v') :: dictSet rest k v

/-- Python `k in d`. -/
def hasKey (fields : List (String × PyVal)) (k : String) : Bool :=
  match fields with
  | [] => false
  | (k', _) :: rest => k' = k || hasKey rest k

/-- Python `node.get(k, dflt)` on a dict (all call sites in the scripts are
guarded by `isinstance(node, dict)`). -/
def pyGet (node : PyVal) (k : String) (dflt : PyVal) : PyVal :=
  match node with
  | .dict fields =>
      match dictGet fields k with
      | some v => v
      | Option.none => dflt
  | _ => dflt

/-- Is the value a Python dict (`isinstance(node, dict)`)? -/
def PyVal.isDict : PyVal → Bool
  | .dict _ => true
  | _ => false

/-- The list a `'Children'` entry iterates over: `node.get('Children', [])`.
The scripts only ever store plist arrays (lists) under `'Children'`; a
non-list value is modelled as iterating nothing. -/
def childrenList (node : PyVal) : List PyVal :=
  match pyGet node "Children" (.list []) with
  | .list l => l
  | _ => []

theorem dictGet_sizeOf {fields : List (String × PyVal)} {k : String} {v : PyVal}
    (h : dictGet fields k = some v) : sizeOf v < sizeOf fields := by
  induction fields with
  | nil => simp [dictGet] at h
  | cons p rest ih =>
      obtain ⟨k', v'⟩ := p
      by_cases hk : k' = k
      · simp [dictGet, hk] at h
        subst h
        simp
        omega
      · simp [dictGet, hk] at h
        have := ih h
        simp
        omega

theorem pyVal_sizeOf_pos (v : PyVal) : 1 ≤ sizeOf v := by
  cases v <;> simp

theorem childrenList_sizeOf_lt (node : PyVal) (h : node.isDict = true) :
    sizeOf (childrenList node) < sizeOf node := by
  cases node with
  | dict fields =>
      unfold childrenList pyGet
      cases hg : dictGet fields "Children" with
      | none =>
          simp only [hg]
          have hf : 1 ≤ sizeOf fields := by
            cases fields
            · simp
            · simp
              omega
          simp
          omega
      | some v =>
          have hv := dictGet_sizeOf hg
          simp only [hg]
          cases v <;> simp_all <;> omega
  | str s => simp [PyVal.isDict] at h
  | int n => simp [PyVal.isDict] at h
  | list l => simp [PyVal.isDict] at h
  | pynone => simp [PyVal.isDict] at h

/-- The test the splice branch applies to a child (`fix_nested_folders.py`
lines 22–25): the child is a dict whose `WebBookmarkType` is
`'WebBookmarkTypeList'` and whose title (default `''`) equals the parent's. -/
def isSameNamedFolder (name child : PyVal) : Bool :=
  child.isDict
    && pyBeq (pyGet child "WebBookmarkType" .pynone) (.str "WebBookmarkTypeList")
    && pyBeq (pyGet child "Title" (.str "")) name

theorem isDict_of_isSameNamedFolder {name child : PyVal}
    (h : isSameNamedFolder name child = true) : child.isDict = true := by
  simp [isSameNamedFolder, Bool.and_eq_true] at h
  exact h.1.1

mutual

/-- `flatten_nested_folders` from `scripts/fix_nested_folders.py`:
non-dicts are returned unchanged; a `WebBookmarkTypeList` dict rebuilds its
`Children` by splicing each same-titled child folder's children (each spliced
grandchild recursively flattened) and recursively flattening every other dict
child; any other dict that has a `Children` key maps the recursion over its
children; everything else is returned as is. -/
def flatten_nested_folders (node : PyVal) : PyVal :=
  match node with
  | .dict fields =>
      if pyBeq (pyGet (.dict fields) "WebBookmarkType" .pynone)
          (.str "WebBookmarkTypeList") then
        .dict (dictSet fields "Children"
          (.list (flattenChildren (pyGet (.dict fields) "Title" (.str ""))
            (childrenList (.dict fields)))))
      else if hasKey fields "Children" then
        .dict (dictSet fields "Children"
          (.list (mapFlatten (childrenList (.dict fields)))))
      else
        .dict fields
  | v => v
termination_by sizeOf node
decreasing_by
  · exact childrenList_sizeOf_lt (.dict fields) rfl
  · exact childrenList_sizeOf_lt (.dict fields) rfl

/-- The loop body of `flatten_nested_folders` over a folder's children:
a same-titled child folder is replaced by its recursively flattened children,
any other dict child is flattened in place, a non-dict child is kept as is. -/
def flattenChildren (name : PyVal) (children : List PyVal) : List PyVal :=
  match children with
  | [] => []
  | child :: rest =>
      (if h : isSameNamedFolder name child = true then
        mapFlatten (childrenList child)
      else if child.isDict then
        [flatten_nested_folders child]
      else
        [child]) ++ flattenChildren name rest
termination_by sizeOf children
decreasing_by
  · have h1 : sizeOf (childrenList child) < sizeOf child :=
      childrenList_sizeOf_lt child (isDict_of_isSameNamedFolder h)
    simp
    omega
  · simp
    omega
  · simp

/-- The list comprehension `[flatten_nested_folders(c) for c in ...]`. -/
def mapFlatten (l : List PyVal) : List PyVal :=
  match l with
  | [] => []
  | x :: xs => flatten_nested_folders x :: mapFlatten xs
termination_by sizeOf l
decreasing_by
  · simp
    omega
  · simp

end

/-- A Safari folder dict with title `t` and children `cs`, the shape
`flatten_nested_folders` acts on. -/
def folderT (t : String) (cs : List PyVal) : PyVal :=
  .dict [("WebBookmarkType", .str "WebBookmarkTypeList"), ("Title", .str t),
         ("Children", .list cs)]

/-- The bookmark leaf `X` of the spec's flatten examples. -/
def bmX : PyVal :=
  .dict [("WebBookmarkType", .str "WebBookmarkTypeLeaf"), ("URLString", .str "http://x")]

theorem flatten_nondict_eq (v : PyVal) (hv : v.isDict = false) :
    flatten_nested_folders v = v := by
  cases v with
  | dict fields => simp [PyVal.isDict] at hv
  | str s => simp [flatten_nested_folders]
  | int n => simp [flatten_nested_folders]
  | list l => simp [flatten_nested_folders]
  | pynone => simp [flatten_nested_folders]

theorem flattenChildren_cons_nondict (name c : PyVal) (rest : List PyVal)
    (hc : c.isDict = false) :
    flattenChildren name (c :: rest) = c :: flattenChildren name rest := by
  have h1 : isSameNamedFolder name c = false := by
    simp [isSameNamedFolder, hc]
  simp [flattenChildren, h1, hc]

theorem flattenChildren_eq_mapFlatten (name : PyVal) (cs : List PyVal)
    (h : ∀ c ∈ cs, isSameNamedFolder name c = false) :
    flattenChildren name cs = mapFlatten cs := by
  induction cs with
  | nil => simp [flattenChildren, mapFlatten]
  | cons c rest ih =>
      have hc : isSameNamedFolder name c = false := h c (List.mem_cons_self c rest)
      have hrest := ih (fun c' hc' => h c' (List.mem_cons_of_mem _ hc'))
      by_cases hd : c.isDict = true
      · simp [flattenChildren, mapFlatten, hc, hd, hrest]
      · have hd' : c.isDict = false := by simpa using hd
        simp [flattenChildren, mapFlatten, hc, hd', hrest,
          flatten_nondict_eq c hd']
/-- C1: a single application of `flatten_nested_folders` to the chain
Folder "A" → Folder "A" → Folder "A" → [Bookmark X] yields
Folder "A" → Folder "A" → [Bookmark X] — still two levels, not the single
level the spec requires: the spliced grandchild folder is recursively
flattened but never re-checked against its new parent's title. -/
theorem c1_flatten_chain3_still_nested :
    flatten_nested_folders (folderT "A" [folderT "A" [folderT "A" [bmX]]])
      = folderT "A" [folderT "A" [bmX]]
    ∧ folderT "A" [folderT "A" [bmX]] ≠ folderT "A" [bmX] := by
  constructor
  · simp [flatten_nested_folders, flattenChildren, mapFlatten, folderT, bmX,
      isSameNamedFolder, pyGet, dictGet, dictSet, childrenList, hasKey, pyBeq,
      fieldsBeq, pyListBeq, PyVal.isDict]
  · simp [folderT, bmX]

/-- C2: `flatten_nested_folders` is not idempotent: on the chain
Folder "A" → Folder "A" → Folder "A" → [Bookmark X] the second application
collapses the remaining nesting that the first application left behind. -/
theorem c2_flatten_not_idempotent :
    flatten_nested_folders
        (flatten_nested_folders (folderT "A" [folderT "A" [folderT "A" [bmX]]]))
      ≠ flatten_nested_folders (folderT "A" [folderT "A" [folderT "A" [bmX]]]) := by
  have h1 : flatten_nested_folders (folderT "A" [folderT "A" [folderT "A" [bmX]]])
      = folderT "A" [folderT "A" [bmX]] := by
    simp [flatten_nested_folders, flattenChildren, mapFlatten, folderT, bmX,
      isSameNamedFolder, pyGet, dictGet, dictSet, childrenList, hasKey, pyBeq,
      fieldsBeq, pyListBeq, PyVal.isDict]
  have h2 : flatten_nested_folders (folderT "A" [folderT "A" [bmX]])
      = folderT "A" [bmX] := by
    simp [flatten_nested_folders, flattenChildren, mapFlatten, folderT, bmX,
      isSameNamedFolder, pyGet, dictGet, dictSet, childrenList, hasKey, pyBeq,
      fieldsBeq, pyListBeq, PyVal.isDict]
  rw [h1, h2]
  simp [folderT, bmX]

/-- C9: `flatten_nested_folders` is the identity on every non-dict value, and
a non-dict element of a folder's `Children` list is kept in place unchanged. -/
theorem c9_flatten_identity_on_nondicts :
    (∀ v : PyVal, v.isDict = false → flatten_nested_folders v = v)
    ∧ (∀ (name c : PyVal) (rest : List PyVal), c.isDict = false →
        flattenChildren name (c :: rest) = c :: flattenChildren name rest) :=
  ⟨flatten_nondict_eq, fun name c rest hc => flattenChildren_cons_nondict name c rest hc⟩

/-- Witness for C9 at concrete inputs. -/
theorem c9_flatten_identity_on_nondicts_witness :
    flatten_nested_folders (.str "hello") = .str "hello"
    ∧ flattenChildren (.str "A") [.int 7] = .int 7 :: flattenChildren (.str "A") [] :=
  ⟨c9_flatten_identity_on_nondicts.1 (.str "hello") rfl,
   c9_flatten_identity_on_nondicts.2 (.str "A") (.int 7) [] rfl⟩

/-- C7: the rewrite is structural only — a dict that is not a
`WebBookmarkTypeList` and has no `Children` key (in particular every bookmark
leaf, so its url and title) is returned entirely unchanged, and in a folder
none of whose children is a same-titled folder (e.g. Folder "A" containing
Folder "B") the children are recursively processed in place, in order, with
no splice and no reordering. -/
theorem c7_flatten_frame :
    (∀ fields : List (String × PyVal),
        pyBeq (pyGet (.dict fields) "WebBookmarkType" .pynone)
          (.str "WebBookmarkTypeList") = false →
        hasKey fields "Children" = false →
        flatten_nested_folders (.dict fields) = .dict fields)
    ∧ (∀ (name : PyVal) (cs : List PyVal),
        (∀ c ∈ cs, isSameNamedFolder name c = false) →
        flattenChildren name cs = mapFlatten cs) := by
  constructor
  · intro fields h1 h2
    simp [flatten_nested_folders, h1, h2]
  · exact flattenChildren_eq_mapFlatten

/-- Witness for C7: a bookmark leaf is untouched, and Folder "A"'s child list
`[Folder "B"]` is processed in place. -/
theorem c7_flatten_frame_witness :
    flatten_nested_folders bmX = bmX
    ∧ flattenChildren (.str "A") [folderT "B" []] = mapFlatten [folderT "B" []] := by
  constructor
  · exact c7_flatten_frame.1
      [("WebBookmarkType", .str "WebBookmarkTypeLeaf"), ("URLString", .str "http://x")]
      (by simp [pyGet, dictGet, pyBeq]) (by simp [hasKey])
  · refine c7_flatten_frame.2 (.str "A") [folderT "B" []] ?_
    intro c hc
    simp only [List.mem_singleton] at hc
    subst hc
    simp [isSameNamedFolder, folderT, pyGet, dictGet, pyBeq, PyVal.isDict]

/-- Characters allowed in a URL scheme (`urllib.parse.scheme_chars`):
ASCII letters and digits plus `+`, `-`, `.`. -/
def isSchemeChar (c : Char) : Bool :=
  c.isAlphanum || c = '+' || c = '-' || c = '.'

/-- The components of a split URL that `extract_domain` can observe
(`scheme` and the part after the netloc are never read by the script). -/
structure SplitResult where
  scheme : String
  netloc : String
  rest : String
deriving Repr, DecidableEq

/-- Modelled from `urllib.parse.urlparse` (Python standard library, called by
`extract_domain` in `scripts/analyze_bookmarks.py`), restricted to what the
script observes: a leading `scheme:` (a first ASCII letter followed by scheme
characters) is split off and lowercased; the netloc exists exactly when the
remainder then starts with `//` and extends to the next `/`, `?` or `#`; a
netloc containing `[` without `]` (or `]` without `[`) raises
`ValueError("Invalid IPv6 URL")`, modelled as `Except.error`.  The further
split of the tail into path/params/query/fragment, the WHATWG control-character
stripping of newer CPython and its extra bracketed-host validation are not
modelled: the script never reads those components, and they produce no netloc
difference on the inputs considered here. -/
def urlparse (url : String) : Except String SplitResult :=
  let cs := url.data
  let schemeRest : List Char × List Char :=
    match cs.findIdx? (· = ':') with
    | some n =>
        if 0 < n && (cs.headD ' ').isAlpha && (cs.take n).all isSchemeChar then
          ((cs.take n).map Char.toLower, cs.drop (n + 1))
        else
          ([], cs)
    | Option.none => ([], cs)
  match schemeRest.2 with
  | '/' :: '/' :: after =>
      let netloc := after.takeWhile fun c => !(c = '/' || c = '?' || c = '#')
      if (netloc.contains '[' && !(netloc.contains ']'))
          || (netloc.contains ']' && !(netloc.contains '[')) then
        .error "Invalid IPv6 URL"
      else
        .ok ⟨String.mk schemeRest.1, String.mk netloc,
             String.mk (after.drop netloc.length)⟩
  | _ => .ok ⟨String.mk schemeRest.1, "", String.mk schemeRest.2⟩

/-- `extract_domain` from `scripts/analyze_bookmarks.py`: lowercase the parsed
netloc, strip a leading `www.`, and on any exception return `'unknown'`. -/
def extract_domain (url : String) : String :=
  match urlparse url with
  | .error _ => "unknown"
  | .ok p =>
      let domain := String.mk (p.netloc.data.map Char.toLower)
      if ("www.".data).isPrefixOf domain.data then String.mk (domain.data.drop 4)
      else domain

/-- The domain `Counter` loop of `scripts/analyze_bookmarks.py`: the number of
records whose url aggregates under domain `d`. -/
def domainsCount (urls : List String) (d : String) : Nat :=
  (urls.map extract_domain).count d

theorem extract_domain_of_error {s e : String} (h : urlparse s = Except.error e) :
    extract_domain s = "unknown" := by
  unfold extract_domain
  rw [h]

/-- C10: `extract_domain` is a total function on strings, and every parsing
exception (an `Except.error` of the urlparse model) is caught and mapped to
`'unknown'`. -/
theorem c10_extract_domain_total_catches :
    ∀ s e : String, urlparse s = Except.error e → extract_domain s = "unknown" :=
  fun _ _ h => extract_domain_of_error h

/-- Witness for C10: `'http://['` raises `ValueError` in urlparse and is
mapped to `'unknown'`. -/
theorem c10_extract_domain_total_catches_witness :
    extract_domain "http://[" = "unknown" :=
  c10_extract_domain_total_catches "http://[" "Invalid IPv6 URL" rfl

/-- C3 (amended): a record whose url raises during URL parsing is counted under
the sentinel `'unknown'` domain and the run continues; but the merely
non-URL-shaped string `'not a url'` parses without error (empty netloc) and is
counted under the empty-string domain `''`, not under `'unknown'`. -/
theorem c3_unknown_bucket_amended :
    (∀ s e : String, urlparse s = Except.error e →
        ∀ urls : List String,
          domainsCount (s :: urls) "unknown" = domainsCount urls "unknown" + 1)
    ∧ extract_domain "not a url" = "" := by
  constructor
  · intro s e h urls
    unfold domainsCount
    simp [List.count_cons, extract_domain_of_error h]
  · decide

/-- Witness for C3 (amended) at the concrete raising input `'http://['`. -/
theorem c3_unknown_bucket_amended_witness :
    domainsCount ["http://["] "unknown" = domainsCount [] "unknown" + 1 :=
  c3_unknown_bucket_amended.1 "http://[" "Invalid IPv6 URL" rfl []

/-- C3 (counterexample): the spec's example input `'not a url'` does not
aggregate under `'unknown'`: it parses without an exception and yields the
empty-string domain. -/
theorem c3_not_a_url_counterexample :
    extract_domain "not a url" ≠ "unknown" ∧ extract_domain "not a url" = "" := by
  constructor
  · decide
  · decide

/-- Python `str.endswith` on strings: suffix test on the character sequence. -/
def endswith (s suffix : String) : Bool :=
  suffix.data.isSuffixOf s.data

/-- The keys of the `hosting` dict in `scripts/analyze_bookmarks.py`. -/
def hostingKeys : List String :=
  ["github.io", "vercel.app", "netlify.app", "pages.dev", "neocities.org"]

/-- The hosting rollup loop: given the distinct counted domains with their
counts, bucket `h` accumulates `domains[domain]` for every domain with
`domain.endswith(h)`. -/
def hostingBucket (domainCounts : List (String × Nat)) (h : String) : Nat :=
  match domainCounts with
  | [] => 0
  | (d, c) :: rest => (if endswith d h then c else 0) + hostingBucket rest h

/-- C8: a domain's count is added to a suffix bucket exactly when the domain
string ends with the suffix, with no dot-boundary requirement: the bucket is
the sum of the counts of all suffix-matching domains, and `foo.github.io`,
the bare `github.io` and `mygithub.io` all contribute to the `github.io`
bucket (which is one of the rollup's keys). -/
theorem c8_hosting_suffix_no_dot_boundary :
    (∀ (dcs : List (String × Nat)) (h : String),
        hostingBucket dcs h =
          ((dcs.filter fun p => endswith p.1 h).map fun p => p.2).sum)
    ∧ "github.io" ∈ hostingKeys
    ∧ endswith "foo.github.io" "github.io" = true
    ∧ endswith "github.io" "github.io" = true
    ∧ endswith "mygithub.io" "github.io" = true
    ∧ hostingBucket [("foo.github.io", 1), ("github.io", 1), ("mygithub.io", 1)]
        "github.io" = 3 := by
  refine ⟨?_, by decide, by decide, by decide, by decide, by decide⟩
  intro dcs h
  induction dcs with
  | nil => simp [hostingBucket]
  | cons p rest ih =>
      obtain ⟨d, c⟩ := p
      by_cases hd : endswith d h = true
      · simp [hostingBucket, hd, ih]
      · have hd' : endswith d h = false := by simpa using hd
        simp [hostingBucket, hd', ih]

/-- A row of `moz_bookmarks` after the `LEFT JOIN moz_places p ON b.fk = p.id`
of `archive/scripts/export_to_safari.py`: `url` is the joined `p.url`
(`none` both when no place row matches `fk` and when the stored url is NULL),
`parent` is NULL or a row id, `position` orders siblings. -/
structure BookmarkRow where
  rid : Nat
  rtype : Nat
  title : Option String
  parent : Option Nat
  position : Int
  url : Option String
deriving Repr, DecidableEq

/-- The query `SELECT ... WHERE b.parent = ? ORDER BY b.position`: rows of the
store whose parent is `pid`, sorted by position (SQLite returns them in a
stable order; the store itself is a row list). -/
def fetchRows (db : List BookmarkRow) (pid : Nat) : List BookmarkRow :=
  (db.filter fun r => r.parent = some pid).mergeSort
    fun a b => decide (a.position ≤ b.position)

/-- Python truthiness of the fetched `url` column: `None` and `''` are falsy. -/
def urlTruthy : Option String → Bool
  | Option.none => false
  | some s => !(s == "")

/-- `title or 'Folder'`: a NULL or empty title falls back to `'Folder'`. -/
def titleOrFolder : Option String → String
  | Option.none => "Folder"
  | some t => if t = "" then "Folder" else t

/-- `title or url[:50]`: a NULL or empty title falls back to the first 50
characters of the url. -/
def leafTitle (title : Option String) (url : String) : String :=
  match title with
  | Option.none => String.mk (url.data.take 50)
  | some t => if t = "" then String.mk (url.data.take 50) else t

/-- The dict built for a `b.type = 2` (folder) row.  `uuid.uuid4()` is random
and never read back by the scripts; it is modelled by the constant `"UUID"`. -/
def folderNode (title : Option String) (children : List PyVal) : PyVal :=
  .dict [("WebBookmarkType", .str "WebBookmarkTypeList"),
         ("Title", .str (titleOrFolder title)),
         ("WebBookmarkUUID", .str "UUID"),
         ("Children", .list children)]

/-- The dict built for a `b.type = 1` (bookmark) row with a truthy url. -/
def leafNode (title : Option String) (url : String) : PyVal :=
  .dict [("WebBookmarkType", .str "WebBookmarkTypeLeaf"),
         ("URLString", .str url),
         ("URIDictionary", .dict [("title", .str (leafTitle title url))]),
         ("WebBookmarkUUID", .str "UUID")]

mutual

/-- `get_children` from `archive/scripts/export_to_safari.py`: fetch the rows
whose parent is `pid` in position order and turn each into a node.  The Python
recursion carries no termination guard (it diverges on a cyclic store); `fuel`
bounds the recursion depth, and on an acyclic store every sufficiently large
fuel yields the exact Python result. -/
def get_children (fuel : Nat) (db : List BookmarkRow) (pid : Nat) : List PyVal :=
  match fuel with
  | 0 => []
  | f + 1 => rowsToItems f db (fetchRows db pid)
termination_by (fuel, 0)

/-- The `for row in cur` loop of `get_children`: a `type = 2` row becomes a
folder node over its recursively built children; a `type = 1` row becomes a
leaf node only when its url is truthy; every other row is dropped. -/
def rowsToItems (fuel : Nat) (db : List BookmarkRow) (rows : List BookmarkRow) :
    List PyVal :=
  match rows with
  | [] => []
  | r :: rest =>
      (if r.rtype == 2 then
        [folderNode r.title (get_children fuel db r.rid)]
      else if r.rtype == 1 && urlTruthy r.url then
        [leafNode r.title (r.url.getD "")]
      else
        []) ++ rowsToItems fuel db rest
termination_by (fuel, rows.length + 1)

end

theorem childrenList_sizeOf_le (v : PyVal) : sizeOf (childrenList v) ≤ sizeOf v := by
  by_cases h : v.isDict = true
  · exact le_of_lt (childrenList_sizeOf_lt v h)
  · have hnil : childrenList v = [] := by
      cases v with
      | dict fields => simp [PyVal.isDict] at h
      | str s => simp [childrenList, pyGet]
      | int n => simp [childrenList, pyGet]
      | list l => simp [childrenList, pyGet]
      | pynone => simp [childrenList, pyGet]
    rw [hnil]
    have := pyVal_sizeOf_pos v
    simp
    omega

/-- The loop body accumulator of `cnt`: running `(b, f)` counts over the items,
a leaf adding 1 to `b`, any other node adding 1 to `f` plus the recursive
counts of its `Children`. -/
def cntAux (acc : Nat × Nat) (items : List PyVal) : Nat × Nat :=
  match items with
  | [] => acc
  | i :: rest =>
      if pyBeq (pyGet i "WebBookmarkType" .pynone) (.str "WebBookmarkTypeLeaf") then
        cntAux (acc.1 + 1, acc.2) rest
      else
        let c := cntAux (0, 0) (childrenList i)
        cntAux (acc.1 + c.1, acc.2 + 1 + c.2) rest
termination_by sizeOf items
decreasing_by
  all_goals simp
  have h1 := childrenList_sizeOf_le child
  omega

/-- `cnt` from `archive/scripts/export_to_safari.py`. -/
def cnt (items : List PyVal) : Nat × Nat :=
  cntAux (0, 0) items

/-- The `WHERE parent=0 OR parent IS NULL` filter of the root query. -/
def isRootCandidate (r : BookmarkRow) : Bool :=
  r.parent == some 0 || r.parent == Option.none

/-- The root lookup
`conn.execute("SELECT id FROM moz_bookmarks WHERE parent=0 OR parent IS NULL").fetchone()[0]`:
`fetchone()` yields the first row of the result set (store order; the query has
no ORDER BY), and subscripting the `None` returned for an empty result raises
`TypeError`, modelled as `Except.error`. -/
def rootResolve (db : List BookmarkRow) : Except String Nat :=
  match db.filter fun r => isRootCandidate r with
  | [] => .error "TypeError: NoneType is not subscriptable"
  | r :: _ => .ok r.rid

/-- Two rows that both satisfy `parent=0 OR parent IS NULL`. -/
def rowRootA : BookmarkRow := ⟨1, 2, some "rootA", some 0, 0, Option.none⟩

/-- A second root candidate (NULL parent). -/
def rowRootB : BookmarkRow := ⟨2, 2, some "rootB", Option.none, 0, Option.none⟩

/-- C4 (counterexample): with two root candidates in the store, root
resolution does not fail: it silently returns the id of the first row. -/
theorem c4_multiple_roots_counterexample :
    (([rowRootA, rowRootB].filter fun r => isRootCandidate r).length = 2)
    ∧ rootResolve [rowRootA, rowRootB] = Except.ok 1 := by
  constructor
  · rfl
  · rfl

/-- C4 (amended): with zero root candidates the lookup is fatal (`fetchone()`
returns `None` and subscripting it raises `TypeError`), but with one or more
candidates it silently returns the first fetched row's id, whatever else
follows. -/
theorem c4_root_resolution_amended :
    (∀ db : List BookmarkRow, db.filter (fun r => isRootCandidate r) = [] →
        rootResolve db = Except.error "TypeError: NoneType is not subscriptable")
    ∧ (∀ (db : List BookmarkRow) (r : BookmarkRow) (rest : List BookmarkRow),
        db.filter (fun r => isRootCandidate r) = r :: rest →
        rootResolve db = Except.ok r.rid) := by
  constructor
  · intro db h
    unfold rootResolve
    rw [h]
  · intro db r rest h
    unfold rootResolve
    rw [h]

/-- Witness for C4 (amended): the empty store fails, a two-candidate store
returns the first candidate's id. -/
theorem c4_root_resolution_amended_witness :
    rootResolve ([] : List BookmarkRow)
      = Except.error "TypeError: NoneType is not subscriptable"
    ∧ rootResolve [rowRootA, rowRootB] = Except.ok rowRootA.rid := by
  constructor
  · exact c4_root_resolution_amended.1 [] rfl
  · exact c4_root_resolution_amended.2 [rowRootA, rowRootB] rowRootA [rowRootB] rfl

/-- Does the node carry `WebBookmarkType` `'WebBookmarkTypeLeaf'`? -/
def isLeafNode (i : PyVal) : Bool :=
  pyBeq (pyGet i "WebBookmarkType" .pynone) (.str "WebBookmarkTypeLeaf")

/-- Does the node carry a non-empty string under `URLString`? -/
def leafURLOk (i : PyVal) : Bool :=
  match pyGet i "URLString" .pynone with
  | .str s => !(s == "")
  | _ => false

/-- Every leaf node in the forest, at any depth, has a non-empty `URLString`. -/
def noEmptyLeaves (items : List PyVal) : Bool :=
  match items with
  | [] => true
  | i :: rest =>
      (!(isLeafNode i) || leafURLOk i) && noEmptyLeaves (childrenList i)
        && noEmptyLeaves rest
termination_by sizeOf items
decreasing_by
  all_goals simp
  have h1 := childrenList_sizeOf_le child
  omega

theorem noEmptyLeaves_append (a b : List PyVal) :
    noEmptyLeaves (a ++ b) = (noEmptyLeaves a && noEmptyLeaves b) := by
  induction a with
  | nil => simp [noEmptyLeaves]
  | cons i rest ih => simp [noEmptyLeaves, ih, Bool.and_assoc]

theorem isLeafNode_folderNode (t : Option String) (cs : List PyVal) :
    isLeafNode (folderNode t cs) = false := by
  simp [isLeafNode, folderNode, pyGet, dictGet, pyBeq]

theorem childrenList_folderNode (t : Option String) (cs : List PyVal) :
    childrenList (folderNode t cs) = cs := by
  simp [childrenList, folderNode, pyGet, dictGet]

theorem isLeafNode_leafNode (t : Option String) (u : String) :
    isLeafNode (leafNode t u) = true := by
  simp [isLeafNode, leafNode, pyGet, dictGet, pyBeq]

theorem leafURLOk_leafNode (t : Option String) (u : String) :
    leafURLOk (leafNode t u) = !(u == "") := by
  simp [leafURLOk, leafNode, pyGet, dictGet]

theorem childrenList_leafNode (t : Option String) (u : String) :
    childrenList (leafNode t u) = [] := by
  simp [childrenList, leafNode, pyGet, dictGet]

theorem noEmptyLeaves_rowsToItems (fuel : Nat)
    (hg : ∀ (db : List BookmarkRow) (pid : Nat),
      noEmptyLeaves (get_children fuel db pid) = true) :
    ∀ (db : List BookmarkRow) (rows : List BookmarkRow),
      noEmptyLeaves (rowsToItems fuel db rows) = true := by
  intro db rows
  induction rows with
  | nil => simp [rowsToItems, noEmptyLeaves]
  | cons r rest ih =>
      simp only [rowsToItems]
      rw [noEmptyLeaves_append]
      by_cases h2 : (r.rtype == 2) = true
      · rw [if_pos h2]
        simp [noEmptyLeaves, isLeafNode_folderNode, childrenList_folderNode,
          hg db r.rid, ih]
      · rw [if_neg h2]
        by_cases h1 : (r.rtype == 1 && urlTruthy r.url) = true
        · rw [if_pos h1]
          have ht := ((Bool.and_eq_true _ _).mp h1).2
          have hurl : (!(r.url.getD "" == "")) = true := by
            cases hu : r.url with
            | none => rw [hu] at ht; simp [urlTruthy] at ht
            | some s =>
                rw [hu] at ht
                simp [urlTruthy] at ht
                simp [ht]
          simp [noEmptyLeaves, isLeafNode_leafNode, leafURLOk_leafNode,
            childrenList_leafNode, hurl, ih]
        · rw [if_neg h1]
          simp [noEmptyLeaves, ih]

theorem noEmptyLeaves_get_children :
    ∀ (fuel : Nat) (db : List BookmarkRow) (pid : Nat),
      noEmptyLeaves (get_children fuel db pid) = true := by
  intro fuel
  induction fuel with
  | zero => intro db pid; simp [get_children, noEmptyLeaves]
  | succ f ih =>
      intro db pid
      simp only [get_children]
      exact noEmptyLeaves_rowsToItems f ih db (fetchRows db pid)

/-- C5: a `type = 1` row with a NULL or empty url produces no node at all; a
`type = 1` row with a non-empty url produces exactly its leaf node in place;
and consequently the built tree never contains a leaf with an empty or missing
`URLString`, at any depth. -/
theorem c5_dangling_bookmarks_dropped :
    (∀ (fuel : Nat) (db : List BookmarkRow) (r : BookmarkRow)
        (rest : List BookmarkRow),
        r.rtype = 1 → (r.url = Option.none ∨ r.url = some "") →
        rowsToItems fuel db (r :: rest) = rowsToItems fuel db rest)
    ∧ (∀ (fuel : Nat) (db : List BookmarkRow) (r : BookmarkRow)
        (rest : List BookmarkRow),
        r.rtype = 1 → urlTruthy r.url = true →
        rowsToItems fuel db (r :: rest)
          = leafNode r.title (r.url.getD "") :: rowsToItems fuel db rest)
    ∧ (∀ (fuel : Nat) (db : List BookmarkRow) (pid : Nat),
        noEmptyLeaves (get_children fuel db pid) = true) := by
  refine ⟨?_, ?_, noEmptyLeaves_get_children⟩
  · intro fuel db r rest h1 hurl
    have hu : urlTruthy r.url = false := by
      rcases hurl with hu | hu <;> rw [hu] <;> simp [urlTruthy]
    simp only [rowsToItems]
    simp [h1, hu]
  · intro fuel db r rest h1 hurl
    simp only [rowsToItems]
    simp [h1, hurl]

/-- A dangling bookmark row: `type = 1`, NULL url. -/
def danglingRow : BookmarkRow := ⟨10, 1, some "t", some 1, 0, Option.none⟩

/-- A proper bookmark row: `type = 1`, non-empty url. -/
def goodRow : BookmarkRow := ⟨11, 1, some "t", some 1, 1, some "http://a"⟩

/-- Witness for C5 at concrete rows. -/
theorem c5_dangling_bookmarks_dropped_witness :
    rowsToItems 1 [] [danglingRow] = rowsToItems 1 [] []
    ∧ rowsToItems 1 [] [goodRow]
        = leafNode (some "t") "http://a" :: rowsToItems 1 [] [] := by
  constructor
  · exact c5_dangling_bookmarks_dropped.1 1 [] danglingRow [] rfl (Or.inl rfl)
  · exact c5_dangling_bookmarks_dropped.2.1 1 [] goodRow [] rfl rfl

/-- An abstract Safari bookmark tree: exactly the two node shapes `cnt`
distinguishes, a bookmark leaf and a folder with children. -/
inductive BNode where
  | bookmark (url title : String) : BNode
  | folder (title : String) (children : List BNode) : BNode
deriving Repr

mutual

/-- Render an abstract node as the plist dict shape the scripts build. -/
def BNode.toPyVal : BNode → PyVal
  | .bookmark url title =>
      .dict [("WebBookmarkType", .str "WebBookmarkTypeLeaf"),
             ("URLString", .str url),
             ("URIDictionary", .dict [("title", .str title)]),
             ("WebBookmarkUUID", .str "UUID")]
  | .folder title children =>
      .dict [("WebBookmarkType", .str "WebBookmarkTypeList"),
             ("Title", .str title),
             ("WebBookmarkUUID", .str "UUID"),
             ("Children", .list (toPyValList children))]

/-- Render an abstract forest. -/
def toPyValList : List BNode → List PyVal
  | [] => []
  | n :: rest => BNode.toPyVal n :: toPyValList rest

end

/-- The number of bookmark nodes in a forest, at any depth. -/
def countB : List BNode → Nat
  | [] => 0
  | .bookmark _ _ :: rest => 1 + countB rest
  | .folder _ cs :: rest => countB cs + countB rest

/-- The number of folder nodes in a forest, at any depth (each folder counts
itself plus its descendants). -/
def countF : List BNode → Nat
  | [] => 0
  | .bookmark _ _ :: rest => countF rest
  | .folder _ cs :: rest => 1 + countF cs + countF rest

theorem cntAux_shift (items : List PyVal) :
    ∀ acc : Nat × Nat,
      cntAux acc items = (acc.1 + (cnt items).1, acc.2 + (cnt items).2) := by
  induction items with
  | nil => intro acc; simp [cntAux, cnt]
  | cons i rest ih =>
      intro acc
      by_cases hl :
          pyBeq (pyGet i "WebBookmarkType" .pynone) (.str "WebBookmarkTypeLeaf") = true
      · have e1 : ∀ a : Nat × Nat, cntAux a (i :: rest) = cntAux (a.1 + 1, a.2) rest := by
          intro a
          simp only [cntAux]
          rw [if_pos hl]
        rw [cnt, e1, e1, ih, ih]
        simp
        omega
      · have e1 : ∀ a : Nat × Nat, cntAux a (i :: rest) =
            cntAux (a.1 + (cntAux (0, 0) (childrenList i)).1,
                    a.2 + 1 + (cntAux (0, 0) (childrenList i)).2) rest := by
          intro a
          simp only [cntAux]
          rw [if_neg hl]
        rw [cnt, e1, e1, ih, ih]
        simp
        omega

theorem bNode_sizeOf_pos (n : BNode) : 1 ≤ sizeOf n := by
  cases n <;> simp <;> omega

theorem cnt_toPyValList :
    ∀ (n : Nat) (forest : List BNode), sizeOf forest ≤ n →
      cnt (toPyValList forest) = (countB forest, countF forest) := by
  intro n
  induction n with
  | zero =>
      intro forest h
      exfalso
      cases forest <;> simp at h
  | succ n ih =>
      intro forest h
      match forest with
      | [] => simp [toPyValList, cnt, cntAux, countB, countF]
      | .bookmark url title :: rest =>
          have hrest : sizeOf rest ≤ n := by
            simp at h
            omega
          have e1 : cnt (toPyValList (.bookmark url title :: rest))
              = cntAux (1, 0) (toPyValList rest) := by
            simp only [toPyValList, BNode.toPyVal, cnt, cntAux]
            rw [if_pos (by simp [pyGet, dictGet, pyBeq])]
          rw [e1, cntAux_shift, ih rest hrest]
          simp [countB, countF]
      | .folder title cs :: rest =>
          have hrest : sizeOf rest ≤ n := by
            simp at h
            have := bNode_sizeOf_pos (.folder title cs)
            omega
          have hcs : sizeOf cs ≤ n := by
            simp at h
            omega
          have e1 : cnt (toPyValList (.folder title cs :: rest))
              = cntAux ((cnt (toPyValList cs)).1, 1 + (cnt (toPyValList cs)).2)
                  (toPyValList rest) := by
            simp only [toPyValList, BNode.toPyVal, cnt, cntAux]
            rw [if_neg (by simp [pyGet, dictGet, pyBeq])]
            simp [childrenList, pyGet, dictGet, cnt]
          rw [e1, cntAux_shift, ih rest hrest, ih cs hcs]
          simp [countB, countF]

/-- C6: `cnt` returns exactly `(bookmark_count, folder_count)`: over any
rendered forest every bookmark node contributes 1 to the first component and
every folder node (including empty ones) 1 to the second, at arbitrary depth;
in particular the spec's tree with 3 bookmarks, a root folder and one nested
empty folder counts as `(3, 2)`. -/
theorem c6_cnt_counts_bookmarks_and_folders :
    (∀ forest : List BNode,
        cnt (toPyValList forest) = (countB forest, countF forest))
    ∧ cnt (toPyValList [.folder "root" [.bookmark "u1" "t1", .bookmark "u2" "t2",
        .bookmark "u3" "t3", .folder "empty" []]]) = (3, 2) := by
  constructor
  · intro forest
    exact cnt_toPyValList (sizeOf forest) forest le_rfl
  · rw [cnt_toPyValList (sizeOf
      ([BNode.folder "root" [.bookmark "u1" "t1", .bookmark "u2" "t2",
        .bookmark "u3" "t3", .folder "empty" []]] : List BNode)) _ le_rfl]
    simp [countB, countF]
